import Mathlib

/-!
Verification development for the SageMaker/EMR/Snowflake connectivity notebook
(src/SparkConnector/Spark-EMR-Snowflake.ipynb).

Two components are embedded:

1. The Endpoint Configurator bash cell:
     EMR_MASTER_INTERNAL_IP=...
     CONF=/home/ec2-user/.sparkmagic/config.json
     if [[ ! -e $CONF.bk ]] then wget <template> -O $CONF.bk fi
     cat $CONF.bk | sed "s/localhost/$EMR_MASTER_INTERNAL_IP/" > $CONF.new
     if [[ $(diff $CONF.new $CONF) ]] then echo "Configuration has changed; Restart Kernel" fi
     cp $CONF.new $CONF
   Files are modelled as lists of lines, a line being a list of characters.
   The sed command carries no g flag, so it rewrites at most the first match
   on each line, and the replacement text is interpreted by sed: an ampersand
   splices in the matched text and a backslash escapes the following
   character.  The target address is interpolated textually into the sed
   script, so an address containing a slash or a newline breaks the script:
   sed then fails and the shell redirection leaves $CONF.new empty.
   (GNU-specific escape forms in the replacement, such as a backslash-n
   newline, are not modelled; the theorems below never rely on them.)

2. The Credential Resolver python cell (get_credentials) and the sfOptions
   dictionary literal of the data-import cell.  The remote parameter store is
   modelled as a function from names to optional values; the batch call
   ssm.get_parameters returns a record for each requested name present in the
   store and silently omits absent names, which is the documented behaviour
   of the external service.  Python dicts are modelled as association lists
   with overwrite-in-place insertion, matching dict-comprehension semantics.
-/

namespace SparkEMR

/-- A line of a configuration file, as a list of characters. -/
abbrev Line := List Char

/-- Test whether the first list is an initial segment of the second. -/
def swith : List Char → List Char → Bool
  | [], _ => true
  | _ :: _, [] => false
  | p :: ps, c :: cs => p == c && swith ps cs

/-- Test whether pat occurs as a contiguous sublist of s. -/
def containsSub (pat : List Char) : List Char → Bool
  | [] => swith pat []
  | c :: cs => swith pat (c :: cs) || containsSub pat cs

/-- The default placeholder address in the sparkmagic template: localhost.
It contains no regex metacharacter, so sed matches it literally. -/
def locPat : Line := ['l', 'o', 'c', 'a', 'l', 'h', 'o', 's', 't']

/-- Expansion of the sed replacement text (the right-hand side of the s
command).  An ampersand stands for the matched text; a backslash escapes the
character after it.  A trailing lone backslash is kept verbatim (real sed
would reject the script there; no theorem exercises that corner). -/
def expandRepl (matched : Line) : Line → Line
  | [] => []
  | c :: rest =>
    if c = '&' then matched ++ expandRepl matched rest
    else if c = '\\' then
      match rest with
      | [] => [c]
      | d :: rest2 => d :: expandRepl matched rest2
    else c :: expandRepl matched rest

/-- Replace the first (leftmost) occurrence of pat in a line by repl,
leaving everything after that occurrence untouched.  This is what an s
command without the g flag does on one input line. -/
def replaceFirst (pat repl : List Char) : List Char → List Char
  | [] => []
  | c :: cs =>
    if swith pat (c :: cs) then repl ++ (c :: cs).drop pat.length
    else c :: replaceFirst pat repl cs

/-- The interpolated sed script s/localhost/$A/ is well formed exactly when
the address contains no slash (which would close the replacement early) and
no newline (which would break the script line). -/
def sedOk (a : Line) : Bool := !(a.contains '/') && !(a.contains '\n')

/-- One line through sed "s/localhost/$A/": the first occurrence of the
placeholder is replaced by the sed-expansion of A. -/
def sedLine (a : Line) (l : Line) : Line :=
  replaceFirst locPat (expandRepl locPat a) l

/-- The candidate file built by cat $CONF.bk | sed "s/localhost/$A/" >
$CONF.new.  When the interpolated script is malformed, sed fails and the
redirection leaves the candidate empty. -/
def buildCandidate (a : Line) (baseline : List Line) : List Line :=
  if sedOk a then baseline.map (sedLine a) else []

/-- The message of the echo inside the diff guard. -/
def restartMsg : Line :=
  ['C', 'o', 'n', 'f', 'i', 'g', 'u', 'r', 'a', 't', 'i', 'o', 'n', ' ',
   'h', 'a', 's', ' ', 'c', 'h', 'a', 'n', 'g', 'e', 'd', ';', ' ',
   'R', 'e', 's', 't', 'a', 'r', 't', ' ', 'K', 'e', 'r', 'n', 'e', 'l']

/-- The observable of $(diff $CONF.new $CONF): the captured standard output
is non-empty exactly when both operands exist and their contents differ; when
the active file is missing, diff writes only to standard error and the
capture is empty. -/
def diffFound (cand : List Line) (active : Option (List Line)) : Bool :=
  match active with
  | none => false
  | some act => decide (cand ≠ act)

/-- The three on-disk files of the configurator: the active config.json, the
baseline backup config.json.bk and the candidate config.json.new.  A value of
none means the file does not exist. -/
structure ConfigState where
  active : Option (List Line)
  backup : Option (List Line)
  candFile : Option (List Line)
deriving DecidableEq

/-- The outcome of one run of the configurator cell: the resulting file
state, whether the guarded wget fired, and the lines echoed to the user. -/
structure RunResult where
  state : ConfigState
  fetched : Bool
  msgs : List Line
deriving DecidableEq

/-- One run of the configurator cell, for target address a and remote
template content template: fetch the baseline backup if it is absent, build
the candidate from the backup, emit the restart advisory when the captured
diff output is non-empty, then unconditionally copy the candidate over the
active file. -/
def runConfigurator (a : Line) (template : List Line) (s : ConfigState) : RunResult :=
  let fetched := s.backup.isNone
  let bk := s.backup.getD template
  let cand := buildCandidate a bk
  let signal := diffFound cand s.active
  { state := { active := some cand, backup := some bk, candFile := some cand },
    fetched := fetched,
    msgs := if signal then [restartMsg] else [] }

/-- Fold a sequence of configurator runs (each with its own address and
template) over a starting file state. -/
def runSeq (inputs : List (Line × List Line)) (s : ConfigState) : ConfigState :=
  match inputs with
  | [] => s
  | (a, t) :: rest => runSeq rest (runConfigurator a t s).state

/-- How many runs of a sequence performed the remote template fetch. -/
def fetchCount (inputs : List (Line × List Line)) (s : ConfigState) : Nat :=
  match inputs with
  | [] => 0
  | (a, t) :: rest =>
    (if (runConfigurator a t s).fetched then 1 else 0) +
      fetchCount rest (runConfigurator a t s).state

/-- An address free of every character the sed replacement side treats
specially; such an address is inserted verbatim. -/
def noMeta (a : Line) : Prop :=
  '&' ∉ a ∧ '\\' ∉ a ∧ '/' ∉ a ∧ '\n' ∉ a

instance (a : Line) : Decidable (noMeta a) := by
  unfold noMeta; infer_instance

/-! ## Credential Resolver -/

/-- The batch call ssm.get_parameters(Names=names, WithDecryption=True)
against a store mapping names to optional secret values: the response list
response[Parameters] holds one (Name, Value) record for each requested name
present in the store, in request order; names absent from the store are
omitted from the list (they are reported in InvalidParameters) and no
exception is raised.  This models the external parameter-store service the
notebook calls through boto3. -/
def getParameters (store : String → Option String) (names : List String) :
    List (String × String) :=
  names.filterMap (fun n => (store n).map (fun v => (n, v)))

/-- Insertion into a python dict: an existing key keeps its position and gets
the new value, a new key is appended at the end. -/
def dictInsert (d : List (String × String)) (k v : String) :
    List (String × String) :=
  if d.any (fun p => p.1 == k) then
    d.map (fun p => if p.1 == k then (k, v) else p)
  else d ++ [(k, v)]

/-- The dict built by a comprehension over a list of (key, value) records,
later records overwriting earlier ones. -/
def dictOfPairs (ps : List (String × String)) : List (String × String) :=
  ps.foldl (fun d p => dictInsert d p.1 p.2) []

/-- Dict lookup d[k]: the value stored at k, or none when k is absent
(python would raise KeyError there). -/
def dictFind (d : List (String × String)) (k : String) : Option String :=
  (d.find? (fun p => p.1 == k)).map (fun p => p.2)

/-- get_credentials(params): one batch fetch from the store, folded into a
dict keyed by parameter name, exactly as the comprehension
param_values = (k[Name] : k[Value] for k in response[Parameters]). -/
def get_credentials (store : String → Option String) (params : List String) :
    List (String × String) :=
  dictOfPairs (getParameters store params)

/-- The nine parameter names the notebook requests. -/
def snowflakeParams : List String :=
  ["/SNOWFLAKE/URL", "/SNOWFLAKE/ACCOUNT_ID", "/SNOWFLAKE/USER_ID",
   "/SNOWFLAKE/PASSWORD", "/SNOWFLAKE/DATABASE", "/SNOWFLAKE/SCHEMA",
   "/SNOWFLAKE/WAREHOUSE", "/SNOWFLAKE/BUCKET", "/SNOWFLAKE/PREFIX"]

/-- The seven parameter names the sfOptions dict literal subscripts. -/
def sfParamKeys : List String :=
  ["/SNOWFLAKE/URL", "/SNOWFLAKE/ACCOUNT_ID", "/SNOWFLAKE/USER_ID",
   "/SNOWFLAKE/PASSWORD", "/SNOWFLAKE/DATABASE", "/SNOWFLAKE/SCHEMA",
   "/SNOWFLAKE/WAREHOUSE"]

/-- The sfOptions dict literal: seven subscript lookups evaluated in source
order, each raising KeyError when its name is missing (modelled by none);
when all succeed the seven option names are bound in order. -/
def sfOptions (pv : List (String × String)) :
    Option (List (String × String)) :=
  (dictFind pv "/SNOWFLAKE/URL").bind fun url =>
  (dictFind pv "/SNOWFLAKE/ACCOUNT_ID").bind fun acct =>
  (dictFind pv "/SNOWFLAKE/USER_ID").bind fun user =>
  (dictFind pv "/SNOWFLAKE/PASSWORD").bind fun pw =>
  (dictFind pv "/SNOWFLAKE/DATABASE").bind fun db =>
  (dictFind pv "/SNOWFLAKE/SCHEMA").bind fun sch =>
  (dictFind pv "/SNOWFLAKE/WAREHOUSE").bind fun wh =>
  some [("sfURL", url), ("sfAccount", acct), ("sfUser", user),
        ("sfPassword", pw), ("sfDatabase", db), ("sfSchema", sch),
        ("sfWarehouse", wh)]

/-- A demonstration store holding every notebook parameter except
/SNOWFLAKE/BUCKET, each name mapped to itself. -/
def demoStore : String → Option String :=
  fun n => if n = "/SNOWFLAKE/BUCKET" then none else some n

/-- A demonstration ParameterValues dict holding all seven sfOptions names. -/
def demoPv : List (String × String) := sfParamKeys.map (fun k => (k, k))

/-- A baseline line holding the placeholder twice: localhost localhost. -/
def twoOccLine : Line := locPat ++ (' ' :: locPat)

/-! ## Helper lemmas -/

lemma swith_append (p v : List Char) : swith p (p ++ v) = true := by
  induction p with
  | nil => simp [swith]
  | cons c cs ih => simp [swith, ih]

lemma expandRepl_of_noMeta (m a : Line) : '&' ∉ a → '\\' ∉ a →
    expandRepl m a = a := by
  induction a with
  | nil => intro _ _; rfl
  | cons c cs ih =>
    intro h1 h2
    have hc : c ≠ '&' := fun hc => h1 (hc ▸ List.mem_cons_self c cs)
    have hb : c ≠ '\\' := fun hb => h2 (hb ▸ List.mem_cons_self c cs)
    have ih₂ := ih (fun hm => h1 (List.mem_cons_of_mem c hm))
      (fun hm => h2 (List.mem_cons_of_mem c hm))
    rw [expandRepl.eq_def]
    simp [hc, hb, ih₂]

lemma contains_eq_false_of_not_mem {a : Line} {c : Char} (h : c ∉ a) :
    a.contains c = false := by
  simp [List.contains, List.elem_eq_mem, h]

lemma sedOk_of_noMeta (a : Line) (h : noMeta a) : sedOk a = true := by
  unfold sedOk
  rw [contains_eq_false_of_not_mem h.2.2.1, contains_eq_false_of_not_mem h.2.2.2]
  rfl

lemma replaceFirst_head (pat a v : List Char) (hne : pat ≠ []) :
    replaceFirst pat a (pat ++ v) = a ++ v := by
  obtain ⟨c, cs, rfl⟩ := List.exists_cons_of_ne_nil hne
  rw [List.cons_append, replaceFirst]
  rw [← List.cons_append, swith_append]
  simp [List.drop_left]

lemma replaceFirst_firstOcc (pat a u v : List Char) (hne : pat ≠ [])
    (h : ∀ i : Fin u.length, swith pat ((u ++ pat ++ v).drop i.1) = false) :
    replaceFirst pat a (u ++ pat ++ v) = u ++ a ++ v := by
  induction u with
  | nil => simpa using replaceFirst_head pat a v hne
  | cons c u ih =>
    have h0 : swith pat (c :: (u ++ (pat ++ v))) = false := by
      have := h ⟨0, by simp⟩
      simpa [List.append_assoc] using this
    have hrest : ∀ i : Fin u.length,
        swith pat ((u ++ pat ++ v).drop i.1) = false := by
      intro i
      have := h ⟨i.1 + 1, Nat.succ_lt_succ i.isLt⟩
      simpa using this
    have ih₂ := ih hrest
    have hx : (c :: u) ++ pat ++ v = c :: (u ++ (pat ++ v)) := by simp
    rw [hx, replaceFirst, if_neg (by simp [h0])]
    rw [List.append_assoc] at ih₂
    rw [ih₂]
    simp

lemma backup_some_after (a : Line) (t : List Line) (s : ConfigState) :
    (runConfigurator a t s).state.backup = some (s.backup.getD t) := by
  simp [runConfigurator]

lemma fetchCount_zero_of_backup_some (inputs : List (Line × List Line)) :
    ∀ s : ConfigState, ∀ b : List Line, s.backup = some b →
      fetchCount inputs s = 0 ∧ (runSeq inputs s).backup = some b := by
  induction inputs with
  | nil => intro s b h; exact ⟨rfl, h⟩
  | cons p rest ih =>
    rintro s b h
    obtain ⟨a, t⟩ := p
    have h1 : (runConfigurator a t s).fetched = false := by
      simp [runConfigurator, h]
    have h2 : (runConfigurator a t s).state.backup = some b := by
      simp [runConfigurator, h]
    have h3 := ih (runConfigurator a t s).state b h2
    refine ⟨?_, ?_⟩
    · simp [fetchCount, h1, h3.1]
    · simpa [runSeq] using h3.2

lemma dictFind_insert_self (d : List (String × String)) (k v : String) :
    dictFind (dictInsert d k v) k = some v := by
  unfold dictInsert dictFind
  by_cases h : d.any (fun p => p.1 == k)
  · rw [if_pos h, List.find?_map]
    have hpred : ((fun p : String × String => p.1 == k) ∘
        (fun p : String × String => if p.1 == k then (k, v) else p)) =
        (fun p : String × String => p.1 == k) := by
      funext p
      by_cases hp : p.1 == k
      · simp [hp, eq_of_beq hp]
      · have hp1 : p.1 ≠ k := by simpa using hp
        simp [hp, hp1]
    rw [hpred]
    obtain ⟨p0, hp0mem, hp0⟩ := List.any_eq_true.mp h
    have hs : (d.find? (fun p => p.1 == k)).isSome :=
      List.find?_isSome.mpr ⟨p0, hp0mem, hp0⟩
    obtain ⟨q, hq⟩ := Option.isSome_iff_exists.mp hs
    have hqk := List.find?_some hq
    rw [hq]
    simp only at hqk
    simp [hqk, eq_of_beq hqk]
  · rw [if_neg h, List.find?_append]
    have hnone : d.find? (fun p => p.1 == k) = none := by
      rw [List.find?_eq_none]
      intro x hx hpx
      exact h (List.any_eq_true.mpr ⟨x, hx, hpx⟩)
    rw [hnone]
    simp

lemma dictFind_insert_ne (d : List (String × String)) (k v k' : String)
    (hne : k' ≠ k) :
    dictFind (dictInsert d k v) k' = dictFind d k' := by
  unfold dictInsert dictFind
  by_cases h : d.any (fun p => p.1 == k)
  · rw [if_pos h, List.find?_map]
    have hpred : ((fun p : String × String => p.1 == k') ∘
        (fun p : String × String => if p.1 == k then (k, v) else p)) =
        (fun p : String × String => p.1 == k') := by
      funext p
      by_cases hp : p.1 == k
      · have hp1 : p.1 = k := eq_of_beq hp
        simp [hp, hp1]
      · have hp1 : p.1 ≠ k := by simpa using hp
        simp [hp, hp1]
    rw [hpred]
    cases hq : d.find? (fun p => p.1 == k') with
    | none => simp
    | some q =>
      have hqk := List.find?_some hq
      simp only at hqk
      have hq1 : q.1 = k' := eq_of_beq hqk
      simp [hq1, if_neg hne]
  · rw [if_neg h, List.find?_append]
    have hk : (((k, v) : String × String).1 == k') = false :=
      beq_eq_false_iff_ne.mpr (fun he => hne he.symm)
    simp [hk]

lemma dictFind_fold_absent (ps : List (String × String)) :
    ∀ d n, n ∉ ps.map Prod.fst →
      dictFind (ps.foldl (fun d p => dictInsert d p.1 p.2) d) n =
        dictFind d n := by
  induction ps with
  | nil => intro d n _; rfl
  | cons p rest ih =>
    intro d n h
    rw [List.map_cons, List.mem_cons] at h
    push_neg at h
    rw [List.foldl_cons, ih _ n h.2]
    exact dictFind_insert_ne d p.1 p.2 n h.1

lemma dictFind_fold_stable (ps : List (String × String)) :
    ∀ d n v, (∀ p ∈ ps, p.1 = n → p.2 = v) → dictFind d n = some v →
      dictFind (ps.foldl (fun d p => dictInsert d p.1 p.2) d) n = some v := by
  induction ps with
  | nil => intro d n v _ hd; exact hd
  | cons p rest ih =>
    intro d n v hps hd
    rw [List.foldl_cons]
    apply ih _ n v (fun q hq => hps q (List.mem_cons_of_mem p hq))
    by_cases hp : p.1 = n
    · have hv : p.2 = v := hps p (List.mem_cons_self p rest) hp
      rw [hp, hv]
      exact dictFind_insert_self d n v
    · rw [dictFind_insert_ne d p.1 p.2 n (fun he => hp he.symm)]
      exact hd

lemma dictFind_fold_present (ps : List (String × String)) :
    ∀ d n v, (∀ p ∈ ps, p.1 = n → p.2 = v) → n ∈ ps.map Prod.fst →
      dictFind (ps.foldl (fun d p => dictInsert d p.1 p.2) d) n = some v := by
  induction ps with
  | nil => intro d n v _ h; simp at h
  | cons p rest ih =>
    intro d n v hps hmem
    rw [List.foldl_cons]
    by_cases hp : p.1 = n
    · have hv : p.2 = v := hps p (List.mem_cons_self p rest) hp
      apply dictFind_fold_stable rest _ n v
        (fun q hq hqn => hps q (List.mem_cons_of_mem p hq) hqn)
      rw [hp, hv]
      exact dictFind_insert_self d n v
    · have hmem₂ : n ∈ rest.map Prod.fst := by
        rw [List.map_cons, List.mem_cons] at hmem
        rcases hmem with he | hm
        · exact absurd he.symm hp
        · exact hm
      exact ih _ n v (fun q hq => hps q (List.mem_cons_of_mem p hq)) hmem₂

lemma dictInsert_keys (d : List (String × String)) (k v k' : String)
    (h : k' ∈ (dictInsert d k v).map Prod.fst) :
    k' ∈ d.map Prod.fst ∨ k' = k := by
  unfold dictInsert at h
  by_cases ha : d.any (fun p => p.1 == k)
  · rw [if_pos ha, List.map_map] at h
    obtain ⟨p, hpd, hfp⟩ := List.mem_map.mp h
    by_cases hpk : p.1 == k
    · right
      rw [← hfp]
      simp [eq_of_beq hpk]
    · left
      apply List.mem_map.mpr
      refine ⟨p, hpd, ?_⟩
      rw [← hfp]
      have hp1 : p.1 ≠ k := by simpa using hpk
      simp [hp1]
  · rw [if_neg ha, List.map_append, List.mem_append] at h
    rcases h with h1 | h2
    · left; exact h1
    · right; simpa using h2

lemma fold_keys_sub (ps : List (String × String)) :
    ∀ d k, k ∈ (ps.foldl (fun d p => dictInsert d p.1 p.2) d).map Prod.fst →
      k ∈ d.map Prod.fst ∨ k ∈ ps.map Prod.fst := by
  induction ps with
  | nil => intro d k h; left; exact h
  | cons p rest ih =>
    intro d k h
    rw [List.foldl_cons] at h
    rcases ih _ k h with h1 | h2
    · rcases dictInsert_keys d p.1 p.2 k h1 with ha | hb
      · left; exact ha
      · right; rw [List.map_cons, hb]; exact List.mem_cons_self p.1 _
    · right
      rw [List.map_cons]
      exact List.mem_cons_of_mem p.1 h2

lemma getParameters_vals (store : String → Option String) (R : List String)
    (n v : String) (h : store n = some v) :
    ∀ p ∈ getParameters store R, p.1 = n → p.2 = v := by
  intro p hp hpn
  unfold getParameters at hp
  obtain ⟨m, hm, hmp⟩ := List.mem_filterMap.mp hp
  cases hsm : store m with
  | none => rw [hsm] at hmp; simp at hmp
  | some w =>
    rw [hsm] at hmp
    simp at hmp
    rw [← hmp] at hpn ⊢
    simp only at hpn ⊢
    rw [hpn] at hsm
    rw [h] at hsm
    exact (Option.some.inj hsm).symm

lemma getParameters_mem (store : String → Option String) (R : List String)
    (n v : String) (h : store n = some v) (hn : n ∈ R) :
    n ∈ (getParameters store R).map Prod.fst := by
  apply List.mem_map.mpr
  refine ⟨(n, v), ?_, rfl⟩
  unfold getParameters
  apply List.mem_filterMap.mpr
  exact ⟨n, hn, by rw [h]; rfl⟩

lemma getParameters_none (store : String → Option String) (R : List String)
    (n : String) (h : store n = none) :
    n ∉ (getParameters store R).map Prod.fst := by
  intro hmem
  obtain ⟨p, hp, hpn⟩ := List.mem_map.mp hmem
  obtain ⟨m, _, hmp⟩ := List.mem_filterMap.mp hp
  cases hsm : store m with
  | none => rw [hsm] at hmp; simp at hmp
  | some w =>
    rw [hsm] at hmp
    simp at hmp
    rw [← hmp] at hpn
    simp only at hpn
    rw [hpn] at hsm
    rw [h] at hsm
    exact Option.noConfusion hsm

lemma getParameters_keys (store : String → Option String) (R : List String) :
    ∀ k ∈ (getParameters store R).map Prod.fst, k ∈ R := by
  intro k hk
  obtain ⟨p, hp, hpk⟩ := List.mem_map.mp hk
  obtain ⟨m, hm, hmp⟩ := List.mem_filterMap.mp hp
  cases hsm : store m with
  | none => rw [hsm] at hmp; simp at hmp
  | some w =>
    rw [hsm] at hmp
    simp at hmp
    rw [← hmp] at hpk
    simp only at hpk
    rw [← hpk]
    exact hm

lemma sfOptions_some_lookups (pv : List (String × String))
    (o : List (String × String)) (h : sfOptions pv = some o) :
    ∀ k ∈ sfParamKeys, (dictFind pv k).isSome := by
  unfold sfOptions at h
  cases h1 : dictFind pv "/SNOWFLAKE/URL" with
  | none => rw [h1] at h; simp at h
  | some v1 =>
  rw [h1] at h
  simp only [Option.some_bind] at h
  cases h2 : dictFind pv "/SNOWFLAKE/ACCOUNT_ID" with
  | none => rw [h2] at h; simp at h
  | some v2 =>
  rw [h2] at h
  simp only [Option.some_bind] at h
  cases h3 : dictFind pv "/SNOWFLAKE/USER_ID" with
  | none => rw [h3] at h; simp at h
  | some v3 =>
  rw [h3] at h
  simp only [Option.some_bind] at h
  cases h4 : dictFind pv "/SNOWFLAKE/PASSWORD" with
  | none => rw [h4] at h; simp at h
  | some v4 =>
  rw [h4] at h
  simp only [Option.some_bind] at h
  cases h5 : dictFind pv "/SNOWFLAKE/DATABASE" with
  | none => rw [h5] at h; simp at h
  | some v5 =>
  rw [h5] at h
  simp only [Option.some_bind] at h
  cases h6 : dictFind pv "/SNOWFLAKE/SCHEMA" with
  | none => rw [h6] at h; simp at h
  | some v6 =>
  rw [h6] at h
  simp only [Option.some_bind] at h
  cases h7 : dictFind pv "/SNOWFLAKE/WAREHOUSE" with
  | none => rw [h7] at h; simp at h
  | some v7 =>
  intro k hk
  simp only [sfParamKeys, List.mem_cons, List.not_mem_nil, or_false] at hk
  rcases hk with rfl | rfl | rfl | rfl | rfl | rfl | rfl <;>
    simp [h1, h2, h3, h4, h5, h6, h7]

/-! ## Claim theorems -/

/-- C1, counterexample.  The claim says every literal occurrence of the
placeholder localhost in the baseline is replaced, including several on one
line.  On the baseline line "localhost localhost" with target address "h",
the sed command (which carries no g flag) rewrites only the first occurrence:
the candidate line still contains the placeholder and differs from the
fully substituted line "h h". -/
theorem sed_misses_second_occurrence :
    buildCandidate ['h'] [twoOccLine] = [('h' :: ' ' :: locPat)] ∧
    containsSub locPat ('h' :: ' ' :: locPat) = true ∧
    buildCandidate ['h'] [twoOccLine] ≠ [['h', ' ', 'h']] := by
  decide

/-- C1, amended.  For every baseline and every target address free of sed
replacement metacharacters, the substitution step rewrites each line
separately, replacing exactly the first (leftmost) literal occurrence of
localhost on the line with A and leaving the rest of the line, including any
further occurrences, untouched. -/
theorem substitution_first_occurrence_per_line (a u v : Line)
    (ls : List Line) (hm : noMeta a)
    (hfirst : ∀ i : Fin u.length,
      swith locPat ((u ++ locPat ++ v).drop i.1) = false) :
    buildCandidate a ls = ls.map (replaceFirst locPat a) ∧
    replaceFirst locPat a (u ++ locPat ++ v) = u ++ a ++ v := by
  have he : expandRepl locPat a = a :=
    expandRepl_of_noMeta locPat a hm.1 hm.2.1
  constructor
  · unfold buildCandidate
    rw [sedOk_of_noMeta a hm]
    simp [sedLine, he]
  · exact replaceFirst_firstOcc locPat a u v (by decide) hfirst

/-- Witness for the amended C1 at a concrete input: address "10.5", baseline
line "localhost!". -/
theorem substitution_first_occurrence_per_line_witness :
    buildCandidate ['1', '0', '.', '5'] [locPat ++ ['!']] =
      [locPat ++ ['!']].map (replaceFirst locPat ['1', '0', '.', '5']) ∧
    replaceFirst locPat ['1', '0', '.', '5'] (([] : Line) ++ locPat ++ ['!']) =
      ([] : Line) ++ ['1', '0', '.', '5'] ++ ['!'] :=
  substitution_first_occurrence_per_line ['1', '0', '.', '5'] [] ['!']
    [locPat ++ ['!']] (by decide) (fun i => i.elim0)

/-- C2.  Running the configurator twice with the same address and template
leaves the active file after the second run identical to its state after the
first run, and the second run prints no restart advisory. -/
theorem configurator_idempotent (a : Line) (t : List Line) (s : ConfigState) :
    (runConfigurator a t (runConfigurator a t s).state).state.active =
      (runConfigurator a t s).state.active ∧
    (runConfigurator a t (runConfigurator a t s).state).msgs = [] := by
  simp [runConfigurator, diffFound]

/-- C3.  The restart advisory is printed exactly when the captured diff
output against the currently active file is non-empty, and at most one
advisory line is printed per run. -/
theorem restart_signal_iff_diff (a : Line) (t : List Line) (s : ConfigState) :
    ((runConfigurator a t s).msgs = [restartMsg] ↔
      diffFound (buildCandidate a (s.backup.getD t)) s.active = true) ∧
    (runConfigurator a t s).msgs.length ≤ 1 := by
  cases h : diffFound (buildCandidate a (s.backup.getD t)) s.active <;>
    simp [runConfigurator, h]

/-- C6.  After every run the active file holds exactly the candidate built in
that run: the copy is unconditional, and when the comparison found no
difference the file is still rewritten while no advisory is printed. -/
theorem active_becomes_candidate (a : Line) (t : List Line) (s : ConfigState) :
    (runConfigurator a t s).state.active =
      some (buildCandidate a (s.backup.getD t)) ∧
    (diffFound (buildCandidate a (s.backup.getD t)) s.active = false →
      (runConfigurator a t s).msgs = []) := by
  cases h : diffFound (buildCandidate a (s.backup.getD t)) s.active <;>
    simp [runConfigurator, h]

/-- Witness for C6 at a concrete input where no difference is found. -/
theorem active_becomes_candidate_witness :
    (runConfigurator [] [] ⟨some [], some [], none⟩).state.active =
      some (buildCandidate []
        ((⟨some [], some [], none⟩ : ConfigState).backup.getD [])) ∧
    (runConfigurator [] [] ⟨some [], some [], none⟩).msgs = [] :=
  have h := active_becomes_candidate [] [] ⟨some [], some [], none⟩
  ⟨h.1, h.2 (by decide)⟩

/-- C7.  The remote template fetch fires on a run exactly when the baseline
backup is absent at the start of that run; over any sequence of runs at most
one fetch happens, and once a backup exists its content survives every later
run unchanged with no further fetch. -/
theorem template_fetch_at_most_once (a : Line) (t : List Line)
    (s : ConfigState) (inputs : List (Line × List Line)) :
    ((runConfigurator a t s).fetched = s.backup.isNone) ∧
    fetchCount inputs s ≤ 1 ∧
    (∀ b, s.backup = some b →
      fetchCount inputs s = 0 ∧ (runSeq inputs s).backup = some b) := by
  refine ⟨by simp [runConfigurator], ?_,
    fun b hb => fetchCount_zero_of_backup_some inputs s b hb⟩
  cases inputs with
  | nil => simp [fetchCount]
  | cons p rest =>
    obtain ⟨a0, t0⟩ := p
    have hsome := backup_some_after a0 t0 s
    have hz := (fetchCount_zero_of_backup_some rest
      (runConfigurator a0 t0 s).state (s.backup.getD t0) hsome).1
    rw [fetchCount, hz]
    cases (runConfigurator a0 t0 s).fetched <;> simp

/-- Witness for C7: with a backup already present, a one-run sequence
fetches nothing and keeps the backup content. -/
theorem template_fetch_at_most_once_witness :
    fetchCount [((['x'] : Line), ([] : List Line))] ⟨none, some [], none⟩ = 0 ∧
    (runSeq [((['x'] : Line), ([] : List Line))]
      ⟨none, some [], none⟩).backup = some [] :=
  (template_fetch_at_most_once ['x'] [] ⟨none, some [], none⟩
    [(['x'], [])]).2.2 [] rfl

/-- C8, counterexample.  The claim says any address is inserted into the
candidate exactly as given.  The address "a&b" is not: sed expands the
ampersand in the replacement to the matched text, so the placeholder line
localhost becomes "alocalhostb", which does not contain "a&b" at all. -/
theorem ampersand_not_inserted_verbatim :
    buildCandidate ['a', '&', 'b'] [locPat] = [('a' :: (locPat ++ ['b']))] ∧
    containsSub ['a', '&', 'b'] ('a' :: (locPat ++ ['b'])) = false := by
  decide

/-- C8, amended.  The configurator applies no validation: any address free of
sed replacement metacharacters is spliced into the candidate exactly as
given, garbage included; an address containing a metacharacter is still
accepted without any error but is reinterpreted by sed rather than copied
verbatim. -/
theorem address_propagates_unvalidated (a v : Line) (hm : noMeta a) :
    buildCandidate a [locPat ++ v] = [a ++ v] ∧
    expandRepl locPat a = a := by
  have he : expandRepl locPat a = a :=
    expandRepl_of_noMeta locPat a hm.1 hm.2.1
  refine ⟨?_, he⟩
  unfold buildCandidate
  rw [sedOk_of_noMeta a hm]
  simp [sedLine, he, replaceFirst_head locPat a v (by decide)]

/-- Witness for the amended C8: the garbage address "@!@" lands verbatim in
the candidate. -/
theorem address_propagates_unvalidated_witness :
    buildCandidate ['@', '!', '@'] [locPat ++ ([] : Line)] =
      [(['@', '!', '@'] : Line) ++ []] ∧
    expandRepl locPat ['@', '!', '@'] = ['@', '!', '@'] :=
  address_propagates_unvalidated ['@', '!', '@'] [] (by decide)

/-- C10.  On a run where the active file does not exist beforehand, the diff
capture is empty, so no advisory is printed, yet the candidate is still
installed as the new active file. -/
theorem fresh_run_no_signal (a : Line) (t : List Line) (s : ConfigState)
    (h : s.active = none) :
    (runConfigurator a t s).msgs = [] ∧
    (runConfigurator a t s).state.active =
      some (buildCandidate a (s.backup.getD t)) := by
  simp [runConfigurator, diffFound, h]

/-- Witness for C10 on a completely fresh host state. -/
theorem fresh_run_no_signal_witness :
    (runConfigurator ['x'] [locPat] ⟨none, none, none⟩).msgs = [] ∧
    (runConfigurator ['x'] [locPat] ⟨none, none, none⟩).state.active =
      some (buildCandidate ['x']
        ((⟨none, none, none⟩ : ConfigState).backup.getD [locPat])) :=
  fresh_run_no_signal ['x'] [locPat] ⟨none, none, none⟩ rfl

/-- C4.  Every requested name present in the store appears in the resolver
output with its stored value; every requested name absent from the store is
silently omitted, the call itself never failing. -/
theorem get_credentials_present_or_omitted (store : String → Option String)
    (R : List String) (n : String) (hn : n ∈ R) :
    (∀ v, store n = some v →
      dictFind (get_credentials store R) n = some v) ∧
    (store n = none → dictFind (get_credentials store R) n = none) := by
  constructor
  · intro v hv
    unfold get_credentials dictOfPairs
    exact dictFind_fold_present (getParameters store R) [] n v
      (getParameters_vals store R n v hv)
      (getParameters_mem store R n v hv hn)
  · intro h0
    unfold get_credentials dictOfPairs
    rw [dictFind_fold_absent (getParameters store R) [] n
      (getParameters_none store R n h0)]
    rfl

/-- Witness for C4: the notebook request of 9 names against a store missing
only /SNOWFLAKE/BUCKET yields a mapping with the other 8 keys and no entry
for the missing one. -/
theorem get_credentials_present_or_omitted_witness :
    dictFind (get_credentials demoStore snowflakeParams) "/SNOWFLAKE/URL" =
      some "/SNOWFLAKE/URL" ∧
    dictFind (get_credentials demoStore snowflakeParams) "/SNOWFLAKE/BUCKET" =
      none ∧
    (get_credentials demoStore snowflakeParams).length = 8 :=
  ⟨(get_credentials_present_or_omitted demoStore snowflakeParams
      "/SNOWFLAKE/URL" (by decide)).1 "/SNOWFLAKE/URL" (by decide),
   (get_credentials_present_or_omitted demoStore snowflakeParams
      "/SNOWFLAKE/BUCKET" (by decide)).2 (by decide),
   by decide⟩

/-- C5.  The resolver output mapping carries no key outside the requested
name sequence. -/
theorem get_credentials_keys_sub (store : String → Option String)
    (R : List String) :
    ∀ k ∈ (get_credentials store R).map Prod.fst, k ∈ R := by
  intro k hk
  unfold get_credentials dictOfPairs at hk
  rcases fold_keys_sub (getParameters store R) [] k hk with h1 | h2
  · simp at h1
  · exact getParameters_keys store R k h2

/-- Witness for C5 at the notebook request against the demonstration
store. -/
theorem get_credentials_keys_sub_witness :
    ("/SNOWFLAKE/SCHEMA" : String) ∈ snowflakeParams :=
  get_credentials_keys_sub demoStore snowflakeParams "/SNOWFLAKE/SCHEMA"
    (by decide)

/-- C9.  Building sfOptions from a ParameterValues mapping that lacks any of
the seven subscripted names raises KeyError before any partial mapping is
produced; when all seven are present each fixed option name is bound to the
corresponding stored value. -/
theorem sfOptions_keyerror_or_complete (pv : List (String × String)) :
    ((∃ k ∈ sfParamKeys, dictFind pv k = none) → sfOptions pv = none) ∧
    (∀ url acct user pw db sch wh,
      dictFind pv "/SNOWFLAKE/URL" = some url →
      dictFind pv "/SNOWFLAKE/ACCOUNT_ID" = some acct →
      dictFind pv "/SNOWFLAKE/USER_ID" = some user →
      dictFind pv "/SNOWFLAKE/PASSWORD" = some pw →
      dictFind pv "/SNOWFLAKE/DATABASE" = some db →
      dictFind pv "/SNOWFLAKE/SCHEMA" = some sch →
      dictFind pv "/SNOWFLAKE/WAREHOUSE" = some wh →
      sfOptions pv = some [("sfURL", url), ("sfAccount", acct),
        ("sfUser", user), ("sfPassword", pw), ("sfDatabase", db),
        ("sfSchema", sch), ("sfWarehouse", wh)]) := by
  constructor
  · rintro ⟨k, hk, hnone⟩
    cases hopt : sfOptions pv with
    | none => rfl
    | some o =>
      have hs := sfOptions_some_lookups pv o hopt k hk
      rw [hnone] at hs
      simp at hs
  · intro url acct user pw db sch wh e1 e2 e3 e4 e5 e6 e7
    simp [sfOptions, e1, e2, e3, e4, e5, e6, e7]

/-- Witness for C9: the empty mapping raises KeyError; the full
demonstration mapping yields the seven bound options. -/
theorem sfOptions_keyerror_or_complete_witness :
    sfOptions [] = none ∧
    sfOptions demoPv = some
      [("sfURL", "/SNOWFLAKE/URL"), ("sfAccount", "/SNOWFLAKE/ACCOUNT_ID"),
       ("sfUser", "/SNOWFLAKE/USER_ID"), ("sfPassword", "/SNOWFLAKE/PASSWORD"),
       ("sfDatabase", "/SNOWFLAKE/DATABASE"),
       ("sfSchema", "/SNOWFLAKE/SCHEMA"),
       ("sfWarehouse", "/SNOWFLAKE/WAREHOUSE")] :=
  ⟨(sfOptions_keyerror_or_complete []).1
      ⟨"/SNOWFLAKE/URL", by decide, by decide⟩,
   (sfOptions_keyerror_or_complete demoPv).2
      "/SNOWFLAKE/URL" "/SNOWFLAKE/ACCOUNT_ID" "/SNOWFLAKE/USER_ID"
      "/SNOWFLAKE/PASSWORD" "/SNOWFLAKE/DATABASE" "/SNOWFLAKE/SCHEMA"
      "/SNOWFLAKE/WAREHOUSE" (by decide) (by decide) (by decide) (by decide)
      (by decide) (by decide) (by decide)⟩

end SparkEMR
